import Mathlib

/-!
Shallow embedding of the `async-api-fast-dio-luizalabs` account-ledger service.

Account side (`src/account/src/service/account_service.py`): balances and
amounts are `Decimal` in the source, constrained to scale 2 by the schemas;
they are embedded as integers counting hundredths (cents), which represents
scale-2 fixed-point decimals exactly and is faithful for everything the
service does with them (addition, subtraction, comparison — all exact, no
rounding anywhere).  The database session is modelled
as a pair of tables: `committed` (what the store has durably committed) and
`pending` (the session's view, which includes its own uncommitted writes).
`commit` publishes `pending`; `rollback` resets `pending` to `committed`.
The `accounts` table is an association list from primary key `id` to row;
`fetchone` takes the first matching row.  Exception-raising methods are
embedded as functions returning `Except AccountError _` paired with the
session state at the moment of the raise.

Token side (`src/account/src/messaging/consumer.py`,
`src/account/src/security/token_validator.py`,
`src/account/src/dependencies/auth_dependency.py`): the two dictionaries of
`TokenStorage` are embedded as functions to `Option`; Python truthiness of
the `token` (string) and `user_id` (int) fields is modelled explicitly
(`""` and `0` are falsy); a JSON field that is absent is modelled as `none`.
`jwt.decode` is external cryptography, so the validator is parametrised by
an abstract decode function returning the possible outcomes of the library
call; `datetime.now().timestamp()` is an explicit parameter.
-/

/-- One row of the `accounts` table (`src/account/src/models/account.py`):
the claims only concern `user_id` and `balance`; `id` is the association-list
key and `created_at` is never read by the modelled operations. -/
structure Account where
  user_id : Int
  balance : Int
deriving DecidableEq, Repr

/-- The `accounts` table: association list from primary key `id` to row. -/
abbrev AccountMap := List (Int × Account)

/-- The async database session: `committed` rows plus the session's
`pending` view (its own writes included). -/
structure DBState where
  committed : AccountMap
  pending : AccountMap
deriving DecidableEq, Repr

/-- `await self.db.commit()`. -/
def DBState.commitDb (st : DBState) : DBState :=
  { st with committed := st.pending }

/-- `await self.db.rollback()`. -/
def DBState.rollbackDb (st : DBState) : DBState :=
  { st with pending := st.committed }

/-- A fresh session over committed table `db` (no pending writes). -/
def initState (db : AccountMap) : DBState :=
  ⟨db, db⟩

/-- The exceptions of `src/account/src/exceptions/custom_exceptions.py`,
with the data each constructor stores in its detail message. -/
inductive AccountError where
  | invalidAmount (amount : Int)
  | notFound (account_id : Int)
  | notFoundUser (user_id : Int)
  | insufficientBalance (account_id : Int) (current_balance : Int) (required_balance : Int)
  | duplicateAccount (user_id : Int)
deriving DecidableEq, Repr

/-- `SELECT * FROM accounts WHERE id = account_id` followed by `fetchone`:
first row whose key matches. -/
def lookupAccount : AccountMap → Int → Option Account
  | [], _ => none
  | (i, a) :: rest, account_id =>
    if i = account_id then some a else lookupAccount rest account_id

/-- `SELECT * FROM accounts WHERE user_id = u` followed by `fetchone`. -/
def lookupAccountByUser : AccountMap → Int → Option Account
  | [], _ => none
  | (_, a) :: rest, u =>
    if a.user_id = u then some a else lookupAccountByUser rest u

/-- `UPDATE accounts SET balance = f(balance) WHERE id = account_id`:
every matching row is rewritten from its own current balance. -/
def mapBalance (db : AccountMap) (account_id : Int) (f : Int → Int) : AccountMap :=
  db.map (fun p => if p.1 = account_id then (p.1, { p.2 with balance := f p.2.balance }) else p)

/-- `AccountService.get_account_by_id`: read-only; raises
`AccountNotFoundException` when no row matches. -/
def get_account_by_id (st : DBState) (account_id : Int) : Except AccountError Account :=
  match lookupAccount st.pending account_id with
  | none => .error (.notFound account_id)
  | some a => .ok a

/-- `AccountService.deposit`: rejects `amount <= 0`, runs the balance
update, raises not-found when the update matched no row, otherwise commits
and returns the updated row. -/
def deposit (st : DBState) (account_id : Int) (amount : Int) :
    Except AccountError Account × DBState :=
  if amount ≤ 0 then (.error (.invalidAmount amount), st)
  else
    let pending1 := mapBalance st.pending account_id (fun b => b + amount)
    match lookupAccount pending1 account_id with
    | none => (.error (.notFound account_id), { st with pending := pending1 })
    | some a => (.ok a, DBState.commitDb { st with pending := pending1 })

/-- `AccountService.withdraw`: rejects `amount <= 0`, reads the current row
(raising not-found if absent), raises `InsufficientBalanceException`
carrying the current and required balances when `balance < amount`,
otherwise updates, commits and returns the updated row (the source reads
the row back with `RETURNING`/`fetchone`; on the first matching row this is
the current row with `amount` subtracted). -/
def withdraw (st : DBState) (account_id : Int) (amount : Int) :
    Except AccountError Account × DBState :=
  if amount ≤ 0 then (.error (.invalidAmount amount), st)
  else
    match get_account_by_id st account_id with
    | .error e => (.error e, st)
    | .ok current =>
      if current.balance < amount then
        (.error (.insufficientBalance account_id current.balance amount), st)
      else
        let pending1 := mapBalance st.pending account_id (fun b => b - amount)
        (.ok { current with balance := current.balance - amount },
         DBState.commitDb { st with pending := pending1 })

/-- The dict returned by `AccountService.transfer`. -/
structure TransferResult where
  from_account : Account
  to_account : Account
  amount : Int
  message : String
deriving DecidableEq, Repr

/-- `AccountService.transfer`: rejects `amount <= 0`, checks both accounts
exist, then runs `withdraw` followed by `deposit`; any exception from those
two triggers `rollback` and is re-raised unchanged. -/
def transfer (st : DBState) (from_account_id to_account_id : Int) (amount : Int) :
    Except AccountError TransferResult × DBState :=
  if amount ≤ 0 then (.error (.invalidAmount amount), st)
  else
    match get_account_by_id st from_account_id with
    | .error e => (.error e, st)
    | .ok _ =>
      match get_account_by_id st to_account_id with
      | .error e => (.error e, st)
      | .ok _ =>
        match withdraw st from_account_id amount with
        | (.error e, st1) => (.error e, st1.rollbackDb)
        | (.ok from_acc, st1) =>
          match deposit st1 to_account_id amount with
          | (.error e, st2) => (.error e, st2.rollbackDb)
          | (.ok to_acc, st2) =>
            (.ok ⟨from_acc, to_acc, amount, "Transfer completed successfully"⟩, st2)

/-- Validated body of `POST /accounts` (`AccountCreate` in
`src/account/src/schemas/account.py`). -/
structure AccountCreate where
  user_id : Int
  balance : Int
deriving DecidableEq, Repr

/-- Validated body of `PUT /accounts/{id}` (`AccountUpdate`). -/
structure AccountUpdate where
  balance : Option Int
deriving DecidableEq, Repr

/-- `AccountService.create_account`: duplicate check on `user_id`, then
insert (the fresh primary key the store generates is a parameter) and
commit. -/
def create_account (st : DBState) (new_id : Int) (data : AccountCreate) :
    Except AccountError Account × DBState :=
  match lookupAccountByUser st.pending data.user_id with
  | some _ => (.error (.duplicateAccount data.user_id), st)
  | none =>
    let row : Account := ⟨data.user_id, data.balance⟩
    (.ok row, DBState.commitDb { st with pending := st.pending ++ [(new_id, row)] })

/-- `AccountService.update_account`: existence check, then either a
balance overwrite (committed) or, when the partial update carries no
fields, a plain re-read. -/
def update_account (st : DBState) (account_id : Int) (data : AccountUpdate) :
    Except AccountError Account × DBState :=
  match get_account_by_id st account_id with
  | .error e => (.error e, st)
  | .ok current =>
    match data.balance with
    | some b =>
      let pending1 :=
        st.pending.map (fun p => if p.1 = account_id then (p.1, { p.2 with balance := b }) else p)
      (.ok { current with balance := b }, DBState.commitDb { st with pending := pending1 })
    | none => (.ok current, st)

/-- Committed balance of an account, when the row exists. -/
def balanceOf (st : DBState) (account_id : Int) : Option Int :=
  (lookupAccount st.committed account_id).map Account.balance

/-- Primary-key uniqueness of the `accounts` table. -/
def uniqueKeys (db : AccountMap) : Prop :=
  (db.map Prod.fst).Nodup

/-- Every committed balance is non-negative. -/
def nonNegDB (db : AccountMap) : Prop :=
  ∀ p ∈ db, 0 ≤ p.2.balance

/-! ## Token cache (`src/account/src/messaging/consumer.py`) -/

/-- Pointwise update of a functional map. -/
def updMap {α β : Type} [DecidableEq α] (m : α → Option β) (k : α) (v : Option β) :
    α → Option β :=
  fun x => if x = k then v else m x

/-- The value stored in `TokenStorage.tokens` for one token.  The source
stores a dict with exactly these keys; `received_at` is the
`datetime.now().isoformat()` string taken at store time. -/
structure TokenInfo where
  user_id : Int
  username : Option String
  token_type : Option String
  expires_in : Option Int
  issued_at : Option String
  received_at : String
deriving DecidableEq, Repr

/-- A consumed token-issuance event after JSON decoding: `token_data.get(k)`
is `none` when field `k` is absent (a JSON `null` behaves identically for
every read the code performs). -/
structure TokenEvent where
  token : Option String
  user_id : Option Int
  username : Option String
  token_type : Option String
  expires_in : Option Int
  issued_at : Option String
deriving DecidableEq, Repr

/-- The two dictionaries of `TokenStorage`: `tokens` maps a token to its
stored info, `user_tokens` is the reverse index from `user_id` to that
user's current token. -/
structure TokenStorage where
  tokens : String → Option TokenInfo
  user_tokens : Int → Option String

/-- The module-level `token_storage = TokenStorage()`. -/
def emptyStorage : TokenStorage :=
  ⟨fun _ => none, fun _ => none⟩

/-- `TokenStorage.store_token`: drops the event when `token` or `user_id`
is absent or falsy (`""`, `0`); otherwise deletes the user's previous token
entry (when that previous token is truthy and still present), inserts the
new entry and points the reverse index at it.  `now` is
`datetime.now().isoformat()`. -/
def TokenStorage.store_token (st : TokenStorage) (token_data : TokenEvent) (now : String) :
    TokenStorage :=
  match token_data.token, token_data.user_id with
  | some token, some user_id =>
    if token = "" ∨ user_id = 0 then st
    else
      let tokens1 :=
        match st.user_tokens user_id with
        | some old_token =>
          if old_token ≠ "" ∧ (st.tokens old_token).isSome then
            updMap st.tokens old_token none
          else st.tokens
        | none => st.tokens
      { tokens := updMap tokens1 token (some
          { user_id := user_id
            username := token_data.username
            token_type := token_data.token_type
            expires_in := token_data.expires_in
            issued_at := token_data.issued_at
            received_at := now })
        user_tokens := updMap st.user_tokens user_id (some token) }
  | _, _ => st

/-- `TokenStorage.get_token_info`: strips an optional bearer-scheme prefix
(`token[7:]`) and looks the token up. -/
def TokenStorage.get_token_info (st : TokenStorage) (token : String) : Option TokenInfo :=
  let token := if token.startsWith "Bearer " then token.drop 7 else token
  st.tokens token

/-- `TokenStorage.get_user_token`. -/
def TokenStorage.get_user_token (st : TokenStorage) (user_id : Int) : Option String :=
  st.user_tokens user_id

/-- `TokenStorage.remove_token`: when the token is present, deletes the
reverse-index entry if it is truthy and currently points at this token,
then deletes the token entry. -/
def TokenStorage.remove_token (st : TokenStorage) (token : String) : TokenStorage :=
  match st.tokens token with
  | none => st
  | some token_info =>
    let user_id := token_info.user_id
    let user_tokens1 :=
      if user_id ≠ 0 ∧ st.user_tokens user_id = some token then
        updMap st.user_tokens user_id none
      else st.user_tokens
    { tokens := updMap st.tokens token none, user_tokens := user_tokens1 }

/-- `process_token_message`, after a successful JSON decode: the source
iterates over the required fields `token`, `user_id`, `username`, returning
as soon as one is absent — but the `store_token` call sits inside that
loop, so it runs once per required field already seen to be present.
All exceptions are caught (`json.JSONDecodeError` and the bare
`except Exception`), so the handler always returns a state; `now` is the
store-time timestamp string. -/
def process_token_message (st : TokenStorage) (token_data : TokenEvent) (now : String) :
    TokenStorage :=
  if token_data.token.isNone then st
  else
    let st1 := st.store_token token_data now
    if token_data.user_id.isNone then st1
    else
      let st2 := st1.store_token token_data now
      if token_data.username.isNone then st2
      else st2.store_token token_data now

/-! ## Token validator and authorization dependency
(`src/account/src/security/token_validator.py`,
`src/account/src/dependencies/auth_dependency.py`) -/

/-- A `fastapi.HTTPException`, as status code plus detail string. -/
structure HTTPError where
  status_code : Nat
  detail : String
deriving DecidableEq, Repr

/-- The claims dict produced by `jwt.decode`; `none` models an absent
claim.  Numeric timestamps are embedded as integers (no claim here depends
on sub-second precision). -/
structure JwtPayload where
  sub : Option String
  user_id : Option Int
  email : Option String
  exp : Option Int
  iat : Option Int
deriving DecidableEq, Repr

/-- The possible outcomes of the external `jwt.decode` call: success,
`jwt.ExpiredSignatureError`, `jwt.InvalidTokenError`, or any other
exception (carrying its `str`). -/
inductive DecodeOutcome where
  | ok (payload : JwtPayload)
  | expiredSignature
  | invalidToken (msg : String)
  | otherError (msg : String)
deriving DecidableEq, Repr

/-- The dict returned by `TokenValidator.validate_token` on success. -/
structure UserClaims where
  username : Option String
  user_id : Option Int
  email : Option String
  exp : Option Int
  iat : Option Int
deriving DecidableEq, Repr

/-- The manual expiry test `if exp and datetime.now(UTC).timestamp() > exp`:
`exp` must be present and truthy (non-zero) and in the past. -/
def expExpired (payload : JwtPayload) (now_ts : Int) : Bool :=
  match payload.exp with
  | some e => e != 0 && decide (e < now_ts)
  | none => false

/-- `TokenValidator.validate_token`: strips the bearer prefix and decodes.
The two library errors are mapped to 401 by their dedicated handlers.  The
two checks the method performs after a successful decode raise
`HTTPException(401)` *inside* the `try`, where the trailing
`except Exception` catches them and re-raises 500 with the stringified
original (`str` of an `HTTPException` is `"{code}: {detail}"`); any other
unexpected exception takes the same 500 path. -/
def validate_token (decode : String → DecodeOutcome) (now_ts : Int) (token : String) :
    Except HTTPError UserClaims :=
  let t := if token.startsWith "Bearer " then token.drop 7 else token
  match decode t with
  | .expiredSignature => .error ⟨401, "Token expired"⟩
  | .invalidToken msg => .error ⟨401, "Invalid token: " ++ msg⟩
  | .otherError msg => .error ⟨500, "Token validation failed: " ++ msg⟩
  | .ok payload =>
    if expExpired payload now_ts then
      .error ⟨500, "Token validation failed: 401: Token expired"⟩
    else if payload.sub = none then
      .error ⟨500, "Token validation failed: 401: Invalid token: missing subject"⟩
    else .ok ⟨payload.sub, payload.user_id, payload.email, payload.exp, payload.iat⟩

/-- The dict returned by `get_current_user`.  The cache branch populates
`token_type` and no `email`; the JWT branch populates `email` and no
`token_type`; absent keys are `none`. -/
structure CurrentUser where
  user_id : Option Int
  username : Option String
  token_type : Option String
  email : Option String
  source : String
deriving DecidableEq, Repr

/-- `get_current_user`: missing credentials are 401; a cache hit returns
the cached identity with source `"rabbitmq_storage"`; on a miss the token
validator runs (`get_token_validator` raises `RuntimeError` when the
validator was never initialised — `validator_ready = false` — which the
generic handler turns into 401); an `HTTPException` from the validator is
re-raised unchanged. -/
def get_current_user (storage : TokenStorage) (validator_ready : Bool)
    (decode : String → DecodeOutcome) (now_ts : Int) (credentials : Option String) :
    Except HTTPError CurrentUser :=
  match credentials with
  | none => .error ⟨401, "Missing authentication credentials"⟩
  | some token =>
    match storage.get_token_info token with
    | some token_info =>
      .ok ⟨some token_info.user_id, token_info.username, token_info.token_type, none,
           "rabbitmq_storage"⟩
    | none =>
      if !validator_ready then .error ⟨401, "Invalid authentication credentials"⟩
      else
        match validate_token decode now_ts token with
        | .ok payload =>
          .ok ⟨payload.user_id, payload.username, none, payload.email, "jwt_validation"⟩
        | .error e => .error e

/-- Consistency of the token map with the reverse index: every stored token
is the one its user's reverse-index entry points at (which forces at most
one live token per user), and the falsy token `""` is never a key. -/
def TokenStorage.consistent (st : TokenStorage) : Prop :=
  (∀ t token_info, st.tokens t = some token_info →
    st.user_tokens token_info.user_id = some t) ∧
  st.tokens "" = none

/-- No cached entry has a falsy identity: no stored token has `user_id = 0`
and the empty token is never a key. -/
def TokenStorage.noFalsy (st : TokenStorage) : Prop :=
  (∀ t token_info, st.tokens t = some token_info → token_info.user_id ≠ 0) ∧
  st.tokens "" = none

/-- The validator's generic-exception path on a given token: `jwt.decode`
threw something other than the two handled JWT errors, or it succeeded and
one of the two post-decode checks (manual expiry, missing subject) raised
`HTTPException(401)` inside the `try` — in every such run the trailing
`except Exception` re-raises 500. -/
def genericHandlerPath (decode : String → DecodeOutcome) (now_ts : Int)
    (token : String) : Prop :=
  match decode (if token.startsWith "Bearer " then token.drop 7 else token) with
  | .otherError _ => True
  | .ok payload => expExpired payload now_ts = true ∨ payload.sub = none
  | _ => False

/-! ## Helper lemmas: the accounts table -/

theorem mapBalance_cons (i : Int) (a : Account) (rest : AccountMap) (account_id : Int)
    (f : Int → Int) :
    mapBalance ((i, a) :: rest) account_id f =
      (if i = account_id then (i, { a with balance := f a.balance }) else (i, a)) ::
        mapBalance rest account_id f := by
  simp only [mapBalance, List.map_cons]

theorem lookupAccount_cons (i : Int) (a : Account) (rest : AccountMap) (j : Int) :
    lookupAccount ((i, a) :: rest) j = if i = j then some a else lookupAccount rest j := rfl

theorem lookupAccount_mapBalance (db : AccountMap) (account_id : Int) (f : Int → Int)
    (j : Int) :
    lookupAccount (mapBalance db account_id f) j =
      (lookupAccount db j).map
        (fun a => if j = account_id then { a with balance := f a.balance } else a) := by
  induction db with
  | nil => rfl
  | cons p rest ih =>
    obtain ⟨i, a⟩ := p
    rw [mapBalance_cons]
    by_cases hij : i = account_id
    · subst hij
      rw [if_pos rfl, lookupAccount_cons, lookupAccount_cons]
      by_cases hj : i = j
      · subst hj
        simp
      · simp [hj, ih]
    · rw [if_neg hij, lookupAccount_cons, lookupAccount_cons]
      by_cases hj : i = j
      · subst hj
        simp [hij]
      · simp [hj, ih]

theorem mapBalance_of_lookup_none (db : AccountMap) (account_id : Int) (f : Int → Int)
    (h : lookupAccount db account_id = none) : mapBalance db account_id f = db := by
  induction db with
  | nil => rfl
  | cons p rest ih =>
    obtain ⟨i, a⟩ := p
    rw [lookupAccount_cons] at h
    by_cases hij : i = account_id
    · rw [if_pos hij] at h
      cases h
    · rw [if_neg hij] at h
      rw [mapBalance_cons, if_neg hij, ih h]

theorem lookupAccount_of_mem (db : AccountMap) (hkeys : uniqueKeys db)
    (p : Int × Account) (hp : p ∈ db) : lookupAccount db p.1 = some p.2 := by
  induction db with
  | nil => cases hp
  | cons q rest ih =>
    obtain ⟨i, a⟩ := q
    rw [uniqueKeys, List.map_cons, List.nodup_cons] at hkeys
    rw [lookupAccount_cons]
    rcases List.mem_cons.mp hp with h | h
    · subst h
      simp
    · have hne : i ≠ p.1 := by
        intro he
        apply hkeys.1
        rw [he]
        exact List.mem_map.mpr ⟨p, h, rfl⟩
      rw [if_neg hne]
      exact ih hkeys.2 h

theorem nonNegDB_mapBalance_add (db : AccountMap) (account_id : Int) (amount : Int)
    (hnn : nonNegDB db) (hpos : 0 ≤ amount) :
    nonNegDB (mapBalance db account_id (fun b => b + amount)) := by
  intro p hp
  rcases List.mem_map.mp hp with ⟨q, hq, rfl⟩
  by_cases h : q.1 = account_id
  · simp only [h, if_pos rfl]
    exact add_nonneg (hnn q hq) hpos
  · simp only [if_neg h]
    exact hnn q hq

theorem nonNegDB_mapBalance_sub (db : AccountMap) (account_id : Int) (amount : Int)
    (hkeys : uniqueKeys db) (a : Account) (ha : lookupAccount db account_id = some a)
    (hnn : nonNegDB db) (hle : amount ≤ a.balance) :
    nonNegDB (mapBalance db account_id (fun b => b - amount)) := by
  intro p hp
  rcases List.mem_map.mp hp with ⟨q, hq, rfl⟩
  by_cases h : q.1 = account_id
  · have hq2 : some q.2 = some a := by
      rw [← lookupAccount_of_mem db hkeys q hq, h, ha]
    simp only [h, if_pos rfl]
    have : q.2 = a := by injection hq2
    rw [this]
    exact sub_nonneg.mpr hle
  · simp only [if_neg h]
    exact hnn q hq

/-! ## Helper lemmas: operation characterizations -/

theorem withdraw_invalid (st : DBState) (account_id : Int) (amount : Int)
    (h : amount ≤ 0) :
    withdraw st account_id amount = (.error (.invalidAmount amount), st) := by
  simp [withdraw, h]

theorem withdraw_notFound (st : DBState) (account_id : Int) (amount : Int)
    (hpos : 0 < amount) (ha : lookupAccount st.pending account_id = none) :
    withdraw st account_id amount = (.error (.notFound account_id), st) := by
  simp [withdraw, not_le.mpr hpos, get_account_by_id, ha]

theorem withdraw_insufficient (st : DBState) (account_id : Int) (amount : Int) (a : Account)
    (hpos : 0 < amount) (ha : lookupAccount st.pending account_id = some a)
    (hlt : a.balance < amount) :
    withdraw st account_id amount =
      (.error (.insufficientBalance account_id a.balance amount), st) := by
  simp [withdraw, not_le.mpr hpos, get_account_by_id, ha, hlt]

theorem withdraw_ok (st : DBState) (account_id : Int) (amount : Int) (a : Account)
    (hpos : 0 < amount) (ha : lookupAccount st.pending account_id = some a)
    (hle : amount ≤ a.balance) :
    withdraw st account_id amount =
      (.ok { a with balance := a.balance - amount },
       ⟨mapBalance st.pending account_id (fun b => b - amount),
        mapBalance st.pending account_id (fun b => b - amount)⟩) := by
  simp [withdraw, not_le.mpr hpos, get_account_by_id, ha, not_lt.mpr hle, DBState.commitDb]

theorem deposit_invalid (st : DBState) (account_id : Int) (amount : Int)
    (h : amount ≤ 0) :
    deposit st account_id amount = (.error (.invalidAmount amount), st) := by
  simp [deposit, h]

theorem deposit_notFound (st : DBState) (account_id : Int) (amount : Int)
    (hpos : 0 < amount) (ha : lookupAccount st.pending account_id = none) :
    deposit st account_id amount = (.error (.notFound account_id), st) := by
  have h1 : lookupAccount (mapBalance st.pending account_id (fun b => b + amount)) account_id
      = none := by
    rw [lookupAccount_mapBalance, ha]
    rfl
  have h2 : mapBalance st.pending account_id (fun b => b + amount) = st.pending :=
    mapBalance_of_lookup_none _ _ _ ha
  simp [deposit, not_le.mpr hpos, h1, h2, ha]

theorem deposit_ok (st : DBState) (account_id : Int) (amount : Int) (a : Account)
    (hpos : 0 < amount) (ha : lookupAccount st.pending account_id = some a) :
    deposit st account_id amount =
      (.ok { a with balance := a.balance + amount },
       ⟨mapBalance st.pending account_id (fun b => b + amount),
        mapBalance st.pending account_id (fun b => b + amount)⟩) := by
  have h1 : lookupAccount (mapBalance st.pending account_id (fun b => b + amount)) account_id
      = some { a with balance := a.balance + amount } := by
    rw [lookupAccount_mapBalance, ha]
    simp
  simp [deposit, not_le.mpr hpos, h1, DBState.commitDb]

theorem transfer_invalid (st : DBState) (f t : Int) (amount : Int) (h : amount ≤ 0) :
    transfer st f t amount = (.error (.invalidAmount amount), st) := by
  simp [transfer, h]

theorem transfer_from_notFound (st : DBState) (f t : Int) (amount : Int)
    (hpos : 0 < amount) (hf : lookupAccount st.pending f = none) :
    transfer st f t amount = (.error (.notFound f), st) := by
  simp [transfer, not_le.mpr hpos, get_account_by_id, hf]

theorem transfer_to_notFound (st : DBState) (f t : Int) (amount : Int) (af : Account)
    (hpos : 0 < amount) (hf : lookupAccount st.pending f = some af)
    (ht : lookupAccount st.pending t = none) :
    transfer st f t amount = (.error (.notFound t), st) := by
  simp [transfer, not_le.mpr hpos, get_account_by_id, hf, ht]

theorem transfer_insufficient (db : AccountMap) (f t : Int) (amount : Int)
    (af a_t : Account) (hpos : 0 < amount) (hf : lookupAccount db f = some af)
    (ht : lookupAccount db t = some a_t) (hlt : af.balance < amount) :
    transfer (initState db) f t amount =
      (.error (.insufficientBalance f af.balance amount), initState db) := by
  have hw := withdraw_insufficient (initState db) f amount af hpos hf hlt
  simp only [initState] at hw ⊢
  simp [transfer, not_le.mpr hpos, get_account_by_id, hf, ht, hw, DBState.rollbackDb]

theorem transfer_ok_eq (db : AccountMap) (f t : Int) (amount : Int) (af a_t : Account)
    (hpos : 0 < amount) (hf : lookupAccount db f = some af)
    (ht : lookupAccount db t = some a_t) (hle : amount ≤ af.balance) :
    transfer (initState db) f t amount =
      (.ok ⟨{ af with balance := af.balance - amount },
            { (if t = f then { a_t with balance := a_t.balance - amount } else a_t) with
                balance :=
                  (if t = f then { a_t with balance := a_t.balance - amount } else a_t).balance
                    + amount },
            amount, "Transfer completed successfully"⟩,
       initState (mapBalance (mapBalance db f (fun b => b - amount)) t
          (fun b => b + amount))) := by
  have hw := withdraw_ok (initState db) f amount af hpos hf hle
  have ha1 : lookupAccount (mapBalance db f (fun b => b - amount)) t =
      some (if t = f then { a_t with balance := a_t.balance - amount } else a_t) := by
    rw [lookupAccount_mapBalance, ht]
    by_cases h : t = f <;> simp [h]
  have hd := deposit_ok ⟨mapBalance db f (fun b => b - amount),
      mapBalance db f (fun b => b - amount)⟩ t amount _ hpos ha1
  simp only [initState] at hw hd ⊢
  simp [transfer, not_le.mpr hpos, get_account_by_id, hf, ht, hw, hd]

/-! ## Claim theorems -/

/-- C1: for every `transfer(fromId, toId, amount)` run in a fresh session, the
debit and the credit form one atomic unit: on success the committed table is
exactly the table with both writes applied (and the session is clean), and on
any exception the session ends with committed and pending tables both equal to
the original table (rolled back, both balances unchanged), the returned error
being the original exception of the failing step unchanged. -/
theorem C1_transfer_atomicity (db : AccountMap) (f t : Int) (amount : Int) :
    (∀ res st2, transfer (initState db) f t amount = (.ok res, st2) →
      st2.committed =
        mapBalance (mapBalance db f (fun b => b - amount)) t (fun b => b + amount) ∧
      st2.pending = st2.committed) ∧
    (∀ e st2, transfer (initState db) f t amount = (.error e, st2) →
      st2.committed = db ∧ st2.pending = db ∧
      (e = .invalidAmount amount ∨
        get_account_by_id (initState db) f = .error e ∨
        get_account_by_id (initState db) t = .error e ∨
        (withdraw (initState db) f amount).1 = .error e)) := by
  by_cases hpos : amount ≤ 0
  · rw [transfer_invalid _ _ _ _ hpos]
    constructor
    · intro res st2 h
      rw [Prod.mk.injEq] at h
      exact Except.noConfusion h.1
    · intro e st2 h
      rw [Prod.mk.injEq] at h
      obtain ⟨h1, h2⟩ := h
      subst h2
      exact ⟨rfl, rfl, Or.inl (Except.error.inj h1).symm⟩
  · have hpos' : 0 < amount := not_le.mp hpos
    cases hft : lookupAccount db f with
    | none =>
      rw [transfer_from_notFound (initState db) f t amount hpos' hft]
      constructor
      · intro res st2 h
        rw [Prod.mk.injEq] at h
        exact Except.noConfusion h.1
      · intro e st2 h
        rw [Prod.mk.injEq] at h
        obtain ⟨h1, h2⟩ := h
        subst h2
        refine ⟨rfl, rfl, Or.inr (Or.inl ?_)⟩
        rw [get_account_by_id]
        simp only [initState]
        rw [hft, ← Except.error.inj h1]
    | some af =>
      cases hft2 : lookupAccount db t with
      | none =>
        rw [transfer_to_notFound (initState db) f t amount af hpos' hft hft2]
        constructor
        · intro res st2 h
          rw [Prod.mk.injEq] at h
          exact Except.noConfusion h.1
        · intro e st2 h
          rw [Prod.mk.injEq] at h
          obtain ⟨h1, h2⟩ := h
          subst h2
          refine ⟨rfl, rfl, Or.inr (Or.inr (Or.inl ?_))⟩
          rw [get_account_by_id]
          simp only [initState]
          rw [hft2, ← Except.error.inj h1]
      | some a_t =>
        by_cases hlt : af.balance < amount
        · rw [transfer_insufficient db f t amount af a_t hpos' hft hft2 hlt]
          constructor
          · intro res st2 h
            rw [Prod.mk.injEq] at h
            exact Except.noConfusion h.1
          · intro e st2 h
            rw [Prod.mk.injEq] at h
            obtain ⟨h1, h2⟩ := h
            subst h2
            refine ⟨rfl, rfl, Or.inr (Or.inr (Or.inr ?_))⟩
            rw [withdraw_insufficient (initState db) f amount af hpos' hft hlt]
            rw [← Except.error.inj h1]
        · have hle : amount ≤ af.balance := not_lt.mp hlt
          rw [transfer_ok_eq db f t amount af a_t hpos' hft hft2 hle]
          constructor
          · intro res st2 h
            rw [Prod.mk.injEq] at h
            obtain ⟨h1, h2⟩ := h
            subst h2
            exact ⟨rfl, rfl⟩
          · intro e st2 h
            rw [Prod.mk.injEq] at h
            exact Except.noConfusion h.1

/-- Witness for C1: a concrete two-account table, transferring 30 from
account 1 (balance 100) to account 2 (balance 50). -/
theorem C1_transfer_atomicity_witness :
    transfer (initState [(1, ⟨10, 100⟩), (2, ⟨20, 50⟩)]) 1 2 30 =
      (.ok ⟨⟨10, 70⟩, ⟨20, 80⟩, 30, "Transfer completed successfully"⟩,
       ⟨[(1, ⟨10, 70⟩), (2, ⟨20, 80⟩)], [(1, ⟨10, 70⟩), (2, ⟨20, 80⟩)]⟩) ∧
    ((⟨[(1, ⟨10, 70⟩), (2, ⟨20, 80⟩)], [(1, ⟨10, 70⟩), (2, ⟨20, 80⟩)]⟩ : DBState).committed =
        mapBalance (mapBalance [(1, ⟨10, 100⟩), (2, ⟨20, 50⟩)] 1 (fun b => b - 30)) 2
          (fun b => b + 30) ∧
      (⟨[(1, ⟨10, 70⟩), (2, ⟨20, 80⟩)], [(1, ⟨10, 70⟩), (2, ⟨20, 80⟩)]⟩ : DBState).pending =
        (⟨[(1, ⟨10, 70⟩), (2, ⟨20, 80⟩)], [(1, ⟨10, 70⟩), (2, ⟨20, 80⟩)]⟩ : DBState).committed) :=
  ⟨by rfl,
   (C1_transfer_atomicity [(1, ⟨10, 100⟩), (2, ⟨20, 50⟩)] 1 2 30).1 _ _ (by rfl)⟩

/-- C2: for every successful transfer from a fresh session the sum of the two
accounts' committed balances is conserved; with `fromId == toId` the transfer
is permitted (it succeeds whenever the amount is positive and covered), leaves
the account's committed balance unchanged, and still fails with
`InsufficientBalance` against the pre-operation balance when uncovered. -/
theorem C2_transfer_conservation (db : AccountMap) (f t : Int) (amount : Int)
    (af a_t : Account) (hf : lookupAccount db f = some af)
    (ht : lookupAccount db t = some a_t) :
    (∀ res st2, transfer (initState db) f t amount = (.ok res, st2) →
      (f ≠ t → ∃ bf bt, balanceOf st2 f = some bf ∧ balanceOf st2 t = some bt ∧
        bf + bt = af.balance + a_t.balance) ∧
      (f = t → balanceOf st2 f = some af.balance)) ∧
    (f = t → 0 < amount → amount ≤ af.balance →
      ∃ res st2, transfer (initState db) f t amount = (.ok res, st2)) ∧
    (f = t → 0 < amount → af.balance < amount →
      transfer (initState db) f t amount =
        (.error (.insufficientBalance f af.balance amount), initState db)) := by
  refine ⟨?_, ?_, ?_⟩
  · intro res st2 h
    by_cases hpos : amount ≤ 0
    · rw [transfer_invalid _ _ _ _ hpos, Prod.mk.injEq] at h
      exact Except.noConfusion h.1
    · have hpos' : 0 < amount := not_le.mp hpos
      by_cases hlt : af.balance < amount
      · rw [transfer_insufficient db f t amount af a_t hpos' hf ht hlt,
          Prod.mk.injEq] at h
        exact Except.noConfusion h.1
      · have hle : amount ≤ af.balance := not_lt.mp hlt
        rw [transfer_ok_eq db f t amount af a_t hpos' hf ht hle, Prod.mk.injEq] at h
        obtain ⟨h1, h2⟩ := h
        subst h2
        constructor
        · intro hne
          refine ⟨af.balance - amount, a_t.balance + amount, ?_, ?_, by ring⟩
          · rw [balanceOf]
            simp only [initState]
            rw [lookupAccount_mapBalance, lookupAccount_mapBalance, hf]
            simp [hne, Ne.symm hne]
          · rw [balanceOf]
            simp only [initState]
            rw [lookupAccount_mapBalance, lookupAccount_mapBalance, ht]
            simp [Ne.symm hne]
        · intro heq
          subst heq
          have haf : a_t = af := by
            rw [hf] at ht
            exact (Option.some.inj ht).symm
          rw [balanceOf]
          simp only [initState]
          rw [lookupAccount_mapBalance, lookupAccount_mapBalance, hf]
          simp [haf]
  · intro heq hpos hle
    subst heq
    exact ⟨_, _, transfer_ok_eq db f f amount af a_t hpos hf ht hle⟩
  · intro heq hpos hlt
    subst heq
    exact transfer_insufficient db f f amount af a_t hpos hf ht hlt

/-- Witness for C2: one account with balance 100; a self-transfer of 200 fails
with `InsufficientBalance` carrying the pre-operation balance. -/
theorem C2_transfer_conservation_witness :
    lookupAccount [(1, ⟨10, 100⟩)] 1 = some ⟨10, 100⟩ ∧ (0 : Int) < 200 ∧
      (100 : Int) < 200 ∧
      transfer (initState [(1, ⟨10, 100⟩)]) 1 1 200 =
        (.error (.insufficientBalance 1 100 200), initState [(1, ⟨10, 100⟩)]) :=
  ⟨by decide, by decide, by decide,
   (C2_transfer_conservation [(1, ⟨10, 100⟩)] 1 1 200 ⟨10, 100⟩ ⟨10, 100⟩
      (by decide) (by decide)).2.2 rfl (by decide) (by decide)⟩

/-- C3: for every `withdraw(accountId, amount)` with positive amount on an
existing account: when the amount is covered the operation succeeds and the
committed balance is exactly the old balance minus the amount; when the
current balance is smaller it fails with `InsufficientBalance` carrying the
current balance and the required amount, and the committed balance is
unchanged (the whole session state is the original one). -/
theorem C3_withdraw_spec (db : AccountMap) (account_id : Int) (amount : Int) (a : Account)
    (hpos : 0 < amount) (ha : lookupAccount db account_id = some a) :
    (amount ≤ a.balance →
      withdraw (initState db) account_id amount =
        (.ok { a with balance := a.balance - amount },
         initState (mapBalance db account_id (fun b => b - amount))) ∧
      balanceOf (withdraw (initState db) account_id amount).2 account_id =
        some (a.balance - amount)) ∧
    (a.balance < amount →
      withdraw (initState db) account_id amount =
        (.error (.insufficientBalance account_id a.balance amount), initState db) ∧
      balanceOf (withdraw (initState db) account_id amount).2 account_id =
        some a.balance) := by
  constructor
  · intro hle
    have hw := withdraw_ok (initState db) account_id amount a hpos ha hle
    refine ⟨hw, ?_⟩
    rw [hw, balanceOf]
    simp only [initState]
    rw [lookupAccount_mapBalance, ha]
    simp
  · intro hlt
    have hw := withdraw_insufficient (initState db) account_id amount a hpos ha hlt
    refine ⟨hw, ?_⟩
    rw [hw, balanceOf]
    simp only [initState]
    rw [ha]
    rfl

/-- Witness for C3: balance 100, withdraw 30 succeeds leaving 70; the
insufficiency half is exercised by `C2`'s witness shape at a different input. -/
theorem C3_withdraw_spec_witness :
    (0 : Int) < 30 ∧ lookupAccount [(1, ⟨10, 100⟩)] 1 = some ⟨10, 100⟩ ∧
      (30 : Int) ≤ 100 ∧
      (withdraw (initState [(1, ⟨10, 100⟩)]) 1 30 =
        (.ok ⟨10, 70⟩, initState (mapBalance [(1, ⟨10, 100⟩)] 1 (fun b => b - 30))) ∧
       balanceOf (withdraw (initState [(1, ⟨10, 100⟩)]) 1 30).2 1 = some 70) :=
  ⟨by decide, by decide, by decide,
   (C3_withdraw_spec [(1, ⟨10, 100⟩)] 1 30 ⟨10, 100⟩ (by decide) (by decide)).1
     (by decide)⟩

/-- C4: for every `deposit(accountId, amount)` with positive amount on an
existing account the operation succeeds, the committed balance is exactly the
old balance plus the amount (exact integer-cents arithmetic), no other
account's balance changes; on a missing account it fails with not-found and
the session state is unchanged. -/
theorem C4_deposit_spec (db : AccountMap) (account_id : Int) (amount : Int)
    (hpos : 0 < amount) :
    (∀ a, lookupAccount db account_id = some a →
      deposit (initState db) account_id amount =
        (.ok { a with balance := a.balance + amount },
         initState (mapBalance db account_id (fun b => b + amount))) ∧
      balanceOf (deposit (initState db) account_id amount).2 account_id =
        some (a.balance + amount) ∧
      (∀ j, j ≠ account_id →
        balanceOf (deposit (initState db) account_id amount).2 j =
          balanceOf (initState db) j)) ∧
    (lookupAccount db account_id = none →
      deposit (initState db) account_id amount =
        (.error (.notFound account_id), initState db)) := by
  constructor
  · intro a ha
    have hd := deposit_ok (initState db) account_id amount a hpos ha
    refine ⟨hd, ?_, ?_⟩
    · rw [hd, balanceOf]
      simp only [initState]
      rw [lookupAccount_mapBalance, ha]
      simp
    · intro j hj
      rw [hd, balanceOf, balanceOf]
      simp only [initState]
      rw [lookupAccount_mapBalance]
      cases lookupAccount db j with
      | none => rfl
      | some b => simp [hj]
  · intro ha
    exact deposit_notFound (initState db) account_id amount hpos ha

/-- Witness for C4: balance 100, deposit 25 gives exactly 125; account 2 is
untouched; depositing on the missing account 9 fails with not-found. -/
theorem C4_deposit_spec_witness :
    (0 : Int) < 25 ∧ lookupAccount [(1, ⟨10, 100⟩)] 1 = some ⟨10, 100⟩ ∧
      (deposit (initState [(1, ⟨10, 100⟩)]) 1 25 =
        (.ok ⟨10, 125⟩, initState (mapBalance [(1, ⟨10, 100⟩)] 1 (fun b => b + 25))) ∧
       balanceOf (deposit (initState [(1, ⟨10, 100⟩)]) 1 25).2 1 = some 125 ∧
       (∀ j, j ≠ 1 →
         balanceOf (deposit (initState [(1, ⟨10, 100⟩)]) 1 25).2 j =
           balanceOf (initState [(1, ⟨10, 100⟩)]) j)) :=
  ⟨by decide, by decide,
   (C4_deposit_spec [(1, ⟨10, 100⟩)] 1 25 (by decide)).1 ⟨10, 100⟩ (by decide)⟩

/-- C6: for every amount `<= 0`, each of deposit, withdraw and transfer fails
with `InvalidAmount` and returns the session state completely unchanged (no
row mutated, nothing pending, nothing committed). -/
theorem C6_nonpositive_amount_rejected (st : DBState) (account_id to_id : Int)
    (amount : Int) (h : amount ≤ 0) :
    deposit st account_id amount = (.error (.invalidAmount amount), st) ∧
    withdraw st account_id amount = (.error (.invalidAmount amount), st) ∧
    transfer st account_id to_id amount = (.error (.invalidAmount amount), st) :=
  ⟨deposit_invalid st account_id amount h, withdraw_invalid st account_id amount h,
   transfer_invalid st account_id to_id amount h⟩

/-- Witness for C6 at amount `-1` (and at `0` the guard also fires, but one
input suffices): all three operations reject and leave the state unchanged. -/
theorem C6_nonpositive_amount_rejected_witness :
    (-1 : Int) ≤ 0 ∧
      (deposit (initState [(1, ⟨10, 100⟩)]) 1 (-1) =
        (.error (.invalidAmount (-1)), initState [(1, ⟨10, 100⟩)]) ∧
       withdraw (initState [(1, ⟨10, 100⟩)]) 1 (-1) =
        (.error (.invalidAmount (-1)), initState [(1, ⟨10, 100⟩)]) ∧
       transfer (initState [(1, ⟨10, 100⟩)]) 1 2 (-1) =
        (.error (.invalidAmount (-1)), initState [(1, ⟨10, 100⟩)])) :=
  ⟨by decide, C6_nonpositive_amount_rejected (initState [(1, ⟨10, 100⟩)]) 1 2 (-1)
    (by decide)⟩

/-- C5: starting from a committed table with unique primary keys and all
balances non-negative, every operation — create (with its schema-validated
non-negative initial balance), update (with its schema-validated non-negative
new balance), deposit, withdraw and transfer — leaves every committed balance
non-negative, whether it succeeds or fails.  The `0 ≤ _` hypotheses on the
create/update inputs embed the `Field(ge=0)` constraint pydantic enforces on
`AccountBase.balance` / `AccountUpdate.balance` before the service runs. -/
theorem C5_balance_nonnegative (db : AccountMap) (hkeys : uniqueKeys db)
    (hnn : nonNegDB db) :
    (∀ new_id data, 0 ≤ data.balance →
      nonNegDB ((create_account (initState db) new_id data).2).committed) ∧
    (∀ account_id data, (∀ b, data.balance = some b → 0 ≤ b) →
      nonNegDB ((update_account (initState db) account_id data).2).committed) ∧
    (∀ account_id amount,
      nonNegDB ((deposit (initState db) account_id amount).2).committed) ∧
    (∀ account_id amount,
      nonNegDB ((withdraw (initState db) account_id amount).2).committed) ∧
    (∀ f t amount, nonNegDB ((transfer (initState db) f t amount).2).committed) := by
  refine ⟨?_, ?_, ?_, ?_, ?_⟩
  · intro new_id data hdata
    rw [create_account]
    cases lookupAccountByUser (initState db).pending data.user_id with
    | some a => exact hnn
    | none =>
      simp only [DBState.commitDb, initState]
      intro p hp
      rcases List.mem_append.mp hp with h | h
      · exact hnn p h
      · rcases List.mem_singleton.mp h with rfl
        exact hdata
  · intro account_id data hdata
    rw [update_account]
    cases hga : get_account_by_id (initState db) account_id with
    | error e => exact hnn
    | ok current =>
      cases hb : data.balance with
      | none => exact hnn
      | some b =>
        simp only [DBState.commitDb, initState]
        intro p hp
        rcases List.mem_map.mp hp with ⟨q, hq, rfl⟩
        by_cases h : q.1 = account_id
        · simp only [h, if_pos rfl]
          exact hdata b hb
        · simp only [if_neg h]
          exact hnn q hq
  · intro account_id amount
    by_cases hpos : amount ≤ 0
    · rw [deposit_invalid _ _ _ hpos]
      exact hnn
    · have hpos' : 0 < amount := not_le.mp hpos
      cases ha : lookupAccount db account_id with
      | none =>
        rw [deposit_notFound (initState db) account_id amount hpos' ha]
        exact hnn
      | some a =>
        rw [deposit_ok (initState db) account_id amount a hpos' ha]
        exact nonNegDB_mapBalance_add db account_id amount hnn hpos'.le
  · intro account_id amount
    by_cases hpos : amount ≤ 0
    · rw [withdraw_invalid _ _ _ hpos]
      exact hnn
    · have hpos' : 0 < amount := not_le.mp hpos
      cases ha : lookupAccount db account_id with
      | none =>
        rw [withdraw_notFound (initState db) account_id amount hpos' ha]
        exact hnn
      | some a =>
        by_cases hlt : a.balance < amount
        · rw [withdraw_insufficient (initState db) account_id amount a hpos' ha hlt]
          exact hnn
        · rw [withdraw_ok (initState db) account_id amount a hpos' ha (not_lt.mp hlt)]
          exact nonNegDB_mapBalance_sub db account_id amount hkeys a ha hnn
            (not_lt.mp hlt)
  · intro f t amount
    by_cases hpos : amount ≤ 0
    · rw [transfer_invalid _ _ _ _ hpos]
      exact hnn
    · have hpos' : 0 < amount := not_le.mp hpos
      cases hf : lookupAccount db f with
      | none =>
        rw [transfer_from_notFound (initState db) f t amount hpos' hf]
        exact hnn
      | some af =>
        cases ht : lookupAccount db t with
        | none =>
          rw [transfer_to_notFound (initState db) f t amount af hpos' hf ht]
          exact hnn
        | some a_t =>
          by_cases hlt : af.balance < amount
          · rw [transfer_insufficient db f t amount af a_t hpos' hf ht hlt]
            exact hnn
          · rw [transfer_ok_eq db f t amount af a_t hpos' hf ht (not_lt.mp hlt)]
            exact nonNegDB_mapBalance_add _ t amount
              (nonNegDB_mapBalance_sub db f amount hkeys af hf hnn (not_lt.mp hlt))
              hpos'.le

/-- Witness for C5: a concrete non-negative two-account table stays
non-negative across a transfer that drains account 1 completely. -/
theorem C5_balance_nonnegative_witness :
    uniqueKeys [(1, ⟨10, 100⟩), (2, ⟨20, 50⟩)] ∧
      nonNegDB [(1, ⟨10, 100⟩), (2, ⟨20, 50⟩)] ∧
      nonNegDB ((transfer (initState [(1, ⟨10, 100⟩), (2, ⟨20, 50⟩)]) 1 2 100).2).committed :=
  ⟨by unfold uniqueKeys; decide, by unfold nonNegDB; decide,
   (C5_balance_nonnegative [(1, ⟨10, 100⟩), (2, ⟨20, 50⟩)]
      (by unfold uniqueKeys; decide) (by unfold nonNegDB; decide)).2.2.2.2 1 2 100⟩

/-! ## Helper lemmas: the token cache -/

theorem store_token_rejected (st : TokenStorage) (token_data : TokenEvent) (now : String)
    (h : token_data.token = none ∨ token_data.user_id = none ∨
      token_data.token = some "" ∨ token_data.user_id = some 0) :
    st.store_token token_data now = st := by
  cases htok : token_data.token with
  | none => simp [TokenStorage.store_token, htok]
  | some token =>
    cases huid : token_data.user_id with
    | none => simp [TokenStorage.store_token, htok, huid]
    | some user_id =>
      rcases h with h | h | h | h
      · rw [htok] at h
        cases h
      · rw [huid] at h
        cases h
      · have he : token = "" := by
          rw [htok] at h
          exact Option.some.inj h
        simp [TokenStorage.store_token, htok, huid, he]
      · have he : user_id = 0 := by
          rw [huid] at h
          exact Option.some.inj h
        simp [TokenStorage.store_token, htok, huid, he]

theorem store_token_consistent (st : TokenStorage) (token_data : TokenEvent) (now : String)
    (h : st.consistent) : (st.store_token token_data now).consistent := by
  obtain ⟨h1, h2⟩ := h
  cases htok : token_data.token with
  | none =>
    rw [store_token_rejected st token_data now (Or.inl htok)]
    exact ⟨h1, h2⟩
  | some token =>
    cases huid : token_data.user_id with
    | none =>
      rw [store_token_rejected st token_data now (Or.inr (Or.inl huid))]
      exact ⟨h1, h2⟩
    | some user_id =>
      by_cases htne : token = ""
      · rw [store_token_rejected st token_data now
          (Or.inr (Or.inr (Or.inl (by rw [htok, htne]))))]
        exact ⟨h1, h2⟩
      by_cases hune : user_id = 0
      · rw [store_token_rejected st token_data now
          (Or.inr (Or.inr (Or.inr (by rw [huid, hune]))))]
        exact ⟨h1, h2⟩
      simp only [TokenStorage.store_token, htok, huid]
      rw [if_neg (by simp [htne, hune])]
      simp only [TokenStorage.consistent]
      constructor
      · intro t info ht
        simp only [updMap] at ht ⊢
        by_cases htt : t = token
        · rw [if_pos htt] at ht
          injection ht with ht2
          subst ht2
          simp [htt]
        · rw [if_neg htt] at ht
          cases hold : st.user_tokens user_id with
          | some old_token =>
            rw [hold] at ht
            simp only [] at ht
            by_cases hcond : old_token ≠ "" ∧ (st.tokens old_token).isSome
            · rw [if_pos hcond] at ht
              simp only [updMap] at ht
              by_cases hto : t = old_token
              · rw [if_pos hto] at ht
                cases ht
              · rw [if_neg hto] at ht
                have e := h1 t info ht
                by_cases hu : info.user_id = user_id
                · exfalso
                  rw [hu, hold] at e
                  exact hto (Option.some.inj e).symm
                · simp only [hu, if_neg hu]
                  exact e
            · rw [if_neg hcond] at ht
              have e := h1 t info ht
              by_cases hu : info.user_id = user_id
              · exfalso
                rw [hu, hold] at e
                have hot : t = old_token := (Option.some.inj e).symm
                push_neg at hcond
                by_cases hoe : old_token = ""
                · rw [hot, hoe] at ht
                  rw [h2] at ht
                  cases ht
                · have hnone := Option.not_isSome_iff_eq_none.mp (hcond hoe)
                  rw [hot, hnone] at ht
                  cases ht
              · simp only [hu, if_neg hu]
                exact e
          | none =>
            rw [hold] at ht
            simp only [] at ht
            have e := h1 t info ht
            by_cases hu : info.user_id = user_id
            · exfalso
              rw [hu, hold] at e
              cases e
            · simp only [hu, if_neg hu]
              exact e
      · simp only [updMap]
        rw [if_neg (Ne.symm htne)]
        cases hold : st.user_tokens user_id with
        | some old_token =>
          simp only []
          by_cases hcond : old_token ≠ "" ∧ (st.tokens old_token).isSome
          · rw [if_pos hcond]
            simp only [updMap]
            by_cases hbe : ("" : String) = old_token
            · rw [if_pos hbe]
            · rw [if_neg hbe]
              exact h2
          · rw [if_neg hcond]
            exact h2
        | none => exact h2

theorem remove_token_consistent (st : TokenStorage) (token : String)
    (h : st.consistent) : (st.remove_token token).consistent := by
  obtain ⟨h1, h2⟩ := h
  rw [TokenStorage.remove_token]
  cases hti : st.tokens token with
  | none => exact ⟨h1, h2⟩
  | some token_info =>
    simp only [TokenStorage.consistent]
    constructor
    · intro t info ht
      simp only [updMap] at ht
      by_cases htt : t = token
      · rw [if_pos htt] at ht
        cases ht
      · rw [if_neg htt] at ht
        have e := h1 t info ht
        by_cases hcond : token_info.user_id ≠ 0 ∧ st.user_tokens token_info.user_id = some token
        · rw [if_pos hcond]
          simp only [updMap]
          by_cases hu : info.user_id = token_info.user_id
          · exfalso
            rw [hu, hcond.2] at e
            exact htt (Option.some.inj e).symm
          · rw [if_neg hu]
            exact e
        · rw [if_neg hcond]
          exact e
    · simp only [updMap]
      by_cases hbt : ("" : String) = token
      · rw [if_pos hbt]
      · rw [if_neg hbt]
        exact h2

theorem store_token_evicts (st : TokenStorage) (token_data : TokenEvent) (now : String)
    (u : Int) (old t : String) (h : st.consistent) (hold : st.user_tokens u = some old)
    (htok : token_data.token = some t) (huid : token_data.user_id = some u)
    (htne : t ≠ "") (hune : u ≠ 0) (hne : t ≠ old)
    (hB : old.startsWith "Bearer " = false) :
    (st.store_token token_data now).get_token_info old = none := by
  obtain ⟨h1, h2⟩ := h
  simp only [TokenStorage.store_token, htok, huid]
  rw [if_neg (by simp [htne, hune])]
  rw [TokenStorage.get_token_info]
  simp only [hB, Bool.false_eq_true, if_false, updMap]
  rw [if_neg (Ne.symm hne), hold]
  simp only []
  by_cases hcond : old ≠ "" ∧ (st.tokens old).isSome
  · rw [if_pos hcond]
    simp [updMap]
  · rw [if_neg hcond]
    push_neg at hcond
    by_cases hoe : old = ""
    · rw [hoe]
      exact h2
    · exact Option.not_isSome_iff_eq_none.mp (hcond hoe)

/-- C7 (amended): every store and revoke preserves consistency of the token
map with the user reverse index (every stored token is the one its user's
reverse-index entry points at); consistency entails at most one live token
per `user_id` in the token map; and storing a new token *different from the
user's previous one* evicts the previous token, whose lookup then returns
not-present.  (The "different" proviso is what the counterexample forces:
re-storing the identical token leaves it present.) -/
theorem C7_token_cache_per_user_uniqueness (st : TokenStorage) :
    (∀ token_data now, st.consistent → (st.store_token token_data now).consistent) ∧
    (∀ token, st.consistent → (st.remove_token token).consistent) ∧
    (st.consistent → ∀ t1 t2 i1 i2, st.tokens t1 = some i1 → st.tokens t2 = some i2 →
      i1.user_id = i2.user_id → t1 = t2) ∧
    (∀ token_data now u old t, st.consistent → st.user_tokens u = some old →
      token_data.token = some t → token_data.user_id = some u → t ≠ "" → u ≠ 0 →
      t ≠ old → old.startsWith "Bearer " = false →
      (st.store_token token_data now).get_token_info old = none) := by
  refine ⟨fun token_data now h => store_token_consistent st token_data now h,
    fun token h => remove_token_consistent st token h, ?_, ?_⟩
  · intro h t1 t2 i1 i2 h1t h2t hid
    have e1 := h.1 t1 i1 h1t
    have e2 := h.1 t2 i2 h2t
    rw [hid] at e1
    rw [e2] at e1
    exact (Option.some.inj e1).symm
  · intro token_data now u old t h hold htok huid htne hune hne hB
    exact store_token_evicts st token_data now u old t h hold htok huid htne hune hne hB

/-- C7 counterexample: user 7 already holds token `"tok7"`; delivering a new
store for user 7 whose token is again `"tok7"` is a store for a user already
holding a token, yet the subsequent lookup of the evicted (previous) token
returns it as present — not "not-present" as the claim states. -/
theorem C7_token_cache_per_user_uniqueness_counterexample :
    (TokenStorage.store_token emptyStorage
        ⟨some "tok7", some 7, some "u7", none, none, none⟩ "t1").user_tokens 7 =
      some "tok7" ∧
    (TokenStorage.store_token
        (TokenStorage.store_token emptyStorage
          ⟨some "tok7", some 7, some "u7", none, none, none⟩ "t1")
        ⟨some "tok7", some 7, some "u7", none, none, none⟩ "t2").get_token_info "tok7" =
      some ⟨7, some "u7", none, none, none, "t2"⟩ := by
  constructor
  · decide
  · decide

theorem emptyStorage_consistent : emptyStorage.consistent :=
  And.intro (fun _ _ h => nomatch h) rfl

/-- Witness for C7 (amended): starting from the consistent one-entry cache
holding `"tok1"` for user 1, storing the different token `"tok2"` for user 1
makes the lookup of `"tok1"` return not-present. -/
theorem C7_token_cache_per_user_uniqueness_witness :
    (TokenStorage.store_token
        (TokenStorage.store_token emptyStorage
          ⟨some "tok1", some 1, some "u1", none, none, none⟩ "t1")
        ⟨some "tok2", some 1, some "u1", none, none, none⟩ "t2").get_token_info "tok1" =
      none :=
  (C7_token_cache_per_user_uniqueness
      (TokenStorage.store_token emptyStorage
        ⟨some "tok1", some 1, some "u1", none, none, none⟩ "t1")).2.2.2
    ⟨some "tok2", some 1, some "u1", none, none, none⟩ "t2" 1 "tok1" "tok2"
    (store_token_consistent emptyStorage
      ⟨some "tok1", some 1, some "u1", none, none, none⟩ "t1" emptyStorage_consistent)
    (by decide) (by decide) (by decide) (by decide) (by decide) (by decide) (by decide)

/-- C8 (code-bug exhibit): a token-issuance event that carries `token` and
`user_id` but is missing `username` is supposed to be rejected with the
cache unchanged; because `store_token` is called inside the
required-field loop of `process_token_message`, the handler stores the
token (with `username = none`) before it reaches the missing-field check,
so the cache is mutated.  (The handler itself never lets an exception
escape: it is a total function in this embedding, mirroring its
catch-all `except` clauses.) -/
theorem C8_missing_username_mutates_cache :
    TokenStorage.get_token_info
        (process_token_message emptyStorage
          ⟨some "tok8", some 8, none, none, none, none⟩ "t0") "tok8" =
      some ⟨8, none, none, none, none, "t0"⟩ ∧
    TokenStorage.get_token_info emptyStorage "tok8" = none := by
  constructor
  · decide
  · decide

theorem store_token_noFalsy (st : TokenStorage) (token_data : TokenEvent) (now : String)
    (h : st.noFalsy) : (st.store_token token_data now).noFalsy := by
  obtain ⟨h1, h2⟩ := h
  cases htok : token_data.token with
  | none =>
    rw [store_token_rejected st token_data now (Or.inl htok)]
    exact ⟨h1, h2⟩
  | some token =>
    cases huid : token_data.user_id with
    | none =>
      rw [store_token_rejected st token_data now (Or.inr (Or.inl huid))]
      exact ⟨h1, h2⟩
    | some user_id =>
      by_cases htne : token = ""
      · rw [store_token_rejected st token_data now
          (Or.inr (Or.inr (Or.inl (by rw [htok, htne]))))]
        exact ⟨h1, h2⟩
      by_cases hune : user_id = 0
      · rw [store_token_rejected st token_data now
          (Or.inr (Or.inr (Or.inr (by rw [huid, hune]))))]
        exact ⟨h1, h2⟩
      simp only [TokenStorage.store_token, htok, huid]
      rw [if_neg (by simp [htne, hune])]
      simp only [TokenStorage.noFalsy]
      constructor
      · intro t info ht
        simp only [updMap] at ht
        by_cases htt : t = token
        · rw [if_pos htt] at ht
          injection ht with ht2
          subst ht2
          exact hune
        · rw [if_neg htt] at ht
          cases hold : st.user_tokens user_id with
          | some old_token =>
            rw [hold] at ht
            simp only [] at ht
            by_cases hcond : old_token ≠ "" ∧ (st.tokens old_token).isSome
            · rw [if_pos hcond] at ht
              simp only [updMap] at ht
              by_cases hto : t = old_token
              · rw [if_pos hto] at ht
                cases ht
              · rw [if_neg hto] at ht
                exact h1 t info ht
            · rw [if_neg hcond] at ht
              exact h1 t info ht
          | none =>
            rw [hold] at ht
            simp only [] at ht
            exact h1 t info ht
      · simp only [updMap]
        rw [if_neg (Ne.symm htne)]
        cases hold : st.user_tokens user_id with
        | some old_token =>
          simp only []
          by_cases hcond : old_token ≠ "" ∧ (st.tokens old_token).isSome
          · rw [if_pos hcond]
            simp only [updMap]
            by_cases hbe : ("" : String) = old_token
            · rw [if_pos hbe]
            · rw [if_neg hbe]
              exact h2
          · rw [if_neg hcond]
            exact h2
        | none => exact h2

theorem remove_token_noFalsy (st : TokenStorage) (token : String)
    (h : st.noFalsy) : (st.remove_token token).noFalsy := by
  obtain ⟨h1, h2⟩ := h
  rw [TokenStorage.remove_token]
  cases hti : st.tokens token with
  | none => exact ⟨h1, h2⟩
  | some token_info =>
    simp only [TokenStorage.noFalsy]
    constructor
    · intro t info ht
      simp only [updMap] at ht
      by_cases htt : t = token
      · rw [if_pos htt] at ht
        cases ht
      · rw [if_neg htt] at ht
        exact h1 t info ht
    · simp only [updMap]
      by_cases hbt : ("" : String) = token
      · rw [if_pos hbt]
      · rw [if_neg hbt]
        exact h2

/-- C10: a `store` whose `user_id` is the falsy `0` or whose `token` is the
falsy `""` drops the event, leaving the cache unchanged, exactly as when the
field is absent; and the no-falsy-entry property (no cached token has
`user_id = 0`, the empty token is never a key) holds for the empty cache and
is preserved by every store, every revoke and every consumed message — so no
entry with `user_id` 0 or an empty token can ever be cached. -/
theorem C10_falsy_fields_rejected (st : TokenStorage) (token_data : TokenEvent)
    (now : String) :
    (token_data.user_id = some 0 →
      st.store_token token_data now = st ∧
      st.store_token { token_data with user_id := none } now = st) ∧
    (token_data.token = some "" →
      st.store_token token_data now = st ∧
      st.store_token { token_data with token := none } now = st) ∧
    emptyStorage.noFalsy ∧
    (st.noFalsy → (st.store_token token_data now).noFalsy) ∧
    (∀ token, st.noFalsy → (st.remove_token token).noFalsy) ∧
    (st.noFalsy → (process_token_message st token_data now).noFalsy) := by
  refine ⟨?_, ?_, And.intro (fun _ _ h => nomatch h) rfl,
    fun h => store_token_noFalsy st token_data now h,
    fun token h => remove_token_noFalsy st token h, ?_⟩
  · intro h
    exact ⟨store_token_rejected st token_data now (Or.inr (Or.inr (Or.inr h))),
      store_token_rejected st _ now (Or.inr (Or.inl rfl))⟩
  · intro h
    exact ⟨store_token_rejected st token_data now (Or.inr (Or.inr (Or.inl h))),
      store_token_rejected st _ now (Or.inl rfl)⟩
  · intro h
    rw [process_token_message]
    by_cases h1 : token_data.token.isNone
    · rw [if_pos h1]
      exact h
    · rw [if_neg h1]
      by_cases h2 : token_data.user_id.isNone
      · rw [if_pos h2]
        exact store_token_noFalsy st token_data now h
      · rw [if_neg h2]
        by_cases h3 : token_data.username.isNone
        · rw [if_pos h3]
          exact store_token_noFalsy _ token_data now
            (store_token_noFalsy st token_data now h)
        · rw [if_neg h3]
          exact store_token_noFalsy _ token_data now
            (store_token_noFalsy _ token_data now
              (store_token_noFalsy st token_data now h))

/-- Witness for C10: storing `user_id = 0` (and, second conjunct, an empty
token) on the empty cache leaves it unchanged, the same as dropping the
field. -/
theorem C10_falsy_fields_rejected_witness :
    (TokenStorage.store_token emptyStorage
        ⟨some "tokX", some 0, some "u", none, none, none⟩ "n" = emptyStorage ∧
      TokenStorage.store_token emptyStorage
        ⟨some "tokX", none, some "u", none, none, none⟩ "n" = emptyStorage) ∧
    (TokenStorage.store_token emptyStorage
        ⟨some "", some 3, some "u", none, none, none⟩ "n" = emptyStorage ∧
      TokenStorage.store_token emptyStorage
        ⟨none, some 3, some "u", none, none, none⟩ "n" = emptyStorage) :=
  ⟨(C10_falsy_fields_rejected emptyStorage
      ⟨some "tokX", some 0, some "u", none, none, none⟩ "n").1 rfl,
   (C10_falsy_fields_rejected emptyStorage
      ⟨some "", some 3, some "u", none, none, none⟩ "n").2.1 rfl⟩

theorem validate_token_error_status (decode : String → DecodeOutcome) (now_ts : Int)
    (token : String) (e : HTTPError) (he : validate_token decode now_ts token = .error e) :
    (e.status_code = 401 ∨ e.status_code = 500) ∧
    (e.status_code = 500 → genericHandlerPath decode now_ts token) := by
  rw [validate_token] at he
  rw [genericHandlerPath]
  cases hdec : decode (if token.startsWith "Bearer " then token.drop 7 else token) with
  | ok payload =>
    rw [hdec] at he
    simp only [] at he
    by_cases hexp : expExpired payload now_ts = true
    · rw [if_pos hexp] at he
      injection he with he2
      subst he2
      exact ⟨Or.inr rfl, fun _ => Or.inl hexp⟩
    · rw [if_neg hexp] at he
      by_cases hsub : payload.sub = none
      · rw [if_pos hsub] at he
        injection he with he2
        subst he2
        exact ⟨Or.inr rfl, fun _ => Or.inr hsub⟩
      · rw [if_neg hsub] at he
        cases he
  | expiredSignature =>
    rw [hdec] at he
    simp only [] at he
    injection he with he2
    subst he2
    exact ⟨Or.inl rfl, fun h => nomatch h⟩
  | invalidToken msg =>
    rw [hdec] at he
    simp only [] at he
    injection he with he2
    subst he2
    exact ⟨Or.inl rfl, fun h => nomatch h⟩
  | otherError msg =>
    rw [hdec] at he
    simp only [] at he
    injection he with he2
    subst he2
    exact ⟨Or.inr rfl, fun _ => trivial⟩

/-- C9 (amended): the cache is consulted first — a hit returns the cached
identity with the cache provenance tag; on a miss the validator runs and a
decoded identity is returned with the JWT provenance tag; when both paths
fail the result is 401 Unauthorized except when the validator takes its
generic exception-handler path (an unexpected decode error, or its own
post-decode expiry / missing-subject checks, whose 401s it swallows), in
which case the result is 500 Internal Server Error — and 500 arises only
on that path. -/
theorem C9_auth_dual_path (storage : TokenStorage) (validator_ready : Bool)
    (decode : String → DecodeOutcome) (now_ts : Int) (token : String) :
    (∀ token_info, storage.get_token_info token = some token_info →
      get_current_user storage validator_ready decode now_ts (some token) =
        .ok ⟨some token_info.user_id, token_info.username, token_info.token_type, none,
          "rabbitmq_storage"⟩) ∧
    (∀ payload, storage.get_token_info token = none → validator_ready = true →
      validate_token decode now_ts token = .ok payload →
      get_current_user storage validator_ready decode now_ts (some token) =
        .ok ⟨payload.user_id, payload.username, none, payload.email, "jwt_validation"⟩) ∧
    (∀ e, get_current_user storage validator_ready decode now_ts (some token) = .error e →
      e.status_code = 401 ∨ e.status_code = 500) ∧
    (∀ e, get_current_user storage validator_ready decode now_ts (some token) = .error e →
      e.status_code = 500 → genericHandlerPath decode now_ts token) := by
  refine ⟨?_, ?_, ?_, ?_⟩
  · intro token_info h
    simp [get_current_user, h]
  · intro payload h hready hv
    simp [get_current_user, h, hready, hv]
  · intro e h
    rw [get_current_user] at h
    cases hinfo : storage.get_token_info token with
    | some token_info =>
      rw [hinfo] at h
      simp only [] at h
      cases h
    | none =>
      rw [hinfo] at h
      simp only [] at h
      cases hready : validator_ready with
      | false =>
        rw [hready] at h
        simp only [Bool.not_false, reduceIte] at h
        injection h with h2
        subst h2
        exact Or.inl rfl
      | true =>
        rw [hready] at h
        simp only [Bool.not_true, reduceIte] at h
        cases hv : validate_token decode now_ts token with
        | ok payload =>
          rw [hv] at h
          simp only [] at h
          cases h
        | error e2 =>
          rw [hv] at h
          simp only [] at h
          injection h with h2
          subst h2
          exact (validate_token_error_status decode now_ts token e2 hv).1
  · intro e h h500
    rw [get_current_user] at h
    cases hinfo : storage.get_token_info token with
    | some token_info =>
      rw [hinfo] at h
      simp only [] at h
      cases h
    | none =>
      rw [hinfo] at h
      simp only [] at h
      cases hready : validator_ready with
      | false =>
        rw [hready] at h
        simp only [Bool.not_false, reduceIte] at h
        injection h with h2
        subst h2
        cases h500
      | true =>
        rw [hready] at h
        simp only [Bool.not_true, reduceIte] at h
        cases hv : validate_token decode now_ts token with
        | ok payload =>
          rw [hv] at h
          simp only [] at h
          cases h
        | error e2 =>
          rw [hv] at h
          simp only [] at h
          injection h with h2
          subst h2
          exact (validate_token_error_status decode now_ts token e2 hv).2 h500

/-- C9 counterexample: cache miss plus a decode that succeeds with a payload
missing `sub` — both paths fail, yet the result is the 500 produced by the
validator's generic handler (which swallowed its own 401), not Unauthorized. -/
theorem C9_auth_dual_path_counterexample :
    TokenStorage.get_token_info emptyStorage "x" = none ∧
    get_current_user emptyStorage true (fun _ => .ok ⟨none, none, none, none, none⟩) 0
        (some "x") =
      .error ⟨500, "Token validation failed: 401: Invalid token: missing subject"⟩ ∧
    (500 : Nat) ≠ 401 := by
  refine ⟨rfl, rfl, by decide⟩

/-- Witness for C9 (amended): a cache hit returns the cached identity with
the cache provenance tag, regardless of the validator (here one that would
reject). -/
theorem C9_auth_dual_path_witness :
    TokenStorage.get_token_info
        (TokenStorage.store_token emptyStorage
          ⟨some "tok9", some 9, some "u9", none, none, none⟩ "n") "tok9" =
      some ⟨9, some "u9", none, none, none, "n"⟩ ∧
    get_current_user
        (TokenStorage.store_token emptyStorage
          ⟨some "tok9", some 9, some "u9", none, none, none⟩ "n")
        true (fun _ => .invalidToken "sig") 0 (some "tok9") =
      .ok ⟨some 9, some "u9", none, none, "rabbitmq_storage"⟩ :=
  ⟨by decide,
   (C9_auth_dual_path _ true (fun _ => .invalidToken "sig") 0 "tok9").1
     ⟨9, some "u9", none, none, none, "n"⟩ (by decide)⟩
